import Mathlib

/-!
Verification development for the nifty-options-bot repository.

Shallow embedding of the tick/candle aggregation engine
(`src/utils/candle_aggregator.py`), the entry-signal state machine
(`src/strategy/breakout_logic.py`), the stop-loss state machine
(`src/strategy/stop_loss.py`) and the backtest replay driver's entry
decision (`src/backtest/backtester.py`).

Prices (Python floats carrying tick prices) are modelled as rationals;
timestamps (Python `datetime`) are modelled as whole minutes since an
epoch together with a second count, which is exactly the granularity the
code observes: the aggregator truncates to minute buckets via
`timestamp.replace(minute=..., second=0, microsecond=0)`, and the
detector only compares times of day against 10:00.  CSV persistence and
logging calls are external side effects (spec section 6) and are not part
of the state.
-/

namespace NiftyBot

/-- A `datetime` value: `minute` is whole minutes since an epoch (folding
the date, hour and minute fields together), `second` the seconds within
that minute.  Microseconds are never observed by the embedded code (they
are zeroed by every `replace` the code performs) and are omitted. -/
structure DTime where
  minute : Nat
  second : Nat
deriving DecidableEq, Repr

/-- Total seconds since the epoch; Python `datetime` comparison agrees
with comparison of this value for in-range field values. -/
def DTime.toSec (t : DTime) : Nat := 60 * t.minute + t.second

instance : LE DTime := ⟨fun a b => a.toSec ≤ b.toSec⟩
instance : LT DTime := ⟨fun a b => a.toSec < b.toSec⟩

instance (a b : DTime) : Decidable (a ≤ b) :=
  inferInstanceAs (Decidable (a.toSec ≤ b.toSec))

instance (a b : DTime) : Decidable (a < b) :=
  inferInstanceAs (Decidable (a.toSec < b.toSec))

/-- Embeds `timestamp.replace(minute=(timestamp.minute // interval) * interval,
second=0, microsecond=0)` from `CandleAggregator._update_candle` /
`_update_candle_with_ohlc`: the date and hour (`t.minute / 60`) are kept,
the minute-of-hour field (`t.minute % 60`) is truncated down to a
multiple of `interval`, and seconds are zeroed. -/
def bucketTime (interval : Nat) (t : DTime) : DTime :=
  ⟨60 * (t.minute / 60) + ((t.minute % 60) / interval) * interval, 0⟩

/-- A candle record `{open, high, low, close, timestamp, token}` as built
by `CandleAggregator` (the Python dict with those keys).  The `open`
field is spelled `open_` because `open` is a Lean keyword. -/
@[ext]
structure Candle where
  open_ : ℚ
  high : ℚ
  low : ℚ
  close : ℚ
  timestamp : DTime
  token : Nat
deriving DecidableEq, Repr

/-- A historical OHLC bar (`candle_data` dict argument of
`add_historical_candle`). -/
structure Bar where
  open_ : ℚ
  high : ℚ
  low : ℚ
  close : ℚ
deriving DecidableEq, Repr

/-- One interval's worth of aggregator state: `current` models
`self.current_{1,5}min_candles` (a dict token → in-progress candle) and
`completed` models `self.completed_{1,5}min_candles` (a defaultdict
token → list of finalized candles). -/
structure IntervalState where
  current : Nat → Option Candle
  completed : Nat → List Candle

/-- The mutable state of `CandleAggregator` (persistence and callback
registration lists are external; a call returns the list of candle copies
handed to the registered completion callbacks instead). -/
structure AggState where
  oneMin : IntervalState
  fiveMin : IntervalState

/-- A freshly constructed interval state (`{}` / empty defaultdict). -/
def emptyIntervalState : IntervalState := ⟨fun _ => none, fun _ => []⟩

/-- A freshly constructed `CandleAggregator()`. -/
def emptyAggState : AggState := ⟨emptyIntervalState, emptyIntervalState⟩

/-- Core of `CandleAggregator._update_candle` for one interval's dicts:
bucket the timestamp, then either create the first candle for the token,
finalize the current candle and start a new one (returning the finalized
copy as the callback payload), or fold the price into the current candle.
The returned list holds the candles passed to completion callbacks. -/
def updCandleInterval (interval token : Nat) (ist : IntervalState) (ltp : ℚ)
    (ts : DTime) : IntervalState × List Candle :=
  let candleTime := bucketTime interval ts
  let fresh : Candle := ⟨ltp, ltp, ltp, ltp, candleTime, token⟩
  match ist.current token with
  | none =>
      let cur' := fun t => if t = token then some fresh else ist.current t
      ({ ist with current := cur' }, [])
  | some cur =>
      if cur.timestamp < candleTime then
        -- new candle period started: save completed candle, fire callbacks,
        -- start a new candle from this tick
        let cur' := fun t => if t = token then some fresh else ist.current t
        let comp' := fun t => if t = token then ist.completed t ++ [cur] else ist.completed t
        ({ current := cur', completed := comp' }, [cur])
      else
        -- update current candle (late ticks also land here)
        let merged : Candle :=
          { cur with high := max cur.high ltp, low := min cur.low ltp, close := ltp }
        let cur' := fun t => if t = token then some merged else ist.current t
        ({ ist with current := cur' }, [])

/-- Embeds `CandleAggregator.add_tick`: update the 1-minute candle, then the
5-minute candle.  Returns the new state together with the payloads of the
1-minute and 5-minute completion callbacks fired by this tick. -/
def addTick (a : AggState) (token : Nat) (ltp : ℚ) (ts : DTime) :
    AggState × List Candle × List Candle :=
  let r1 := updCandleInterval 1 token a.oneMin ltp ts
  let r5 := updCandleInterval 5 token a.fiveMin ltp ts
  (⟨r1.1, r5.1⟩, r1.2, r5.2)

/-- Embeds `CandleAggregator._update_candle_with_ohlc`: only the 5-minute
interval is supported; a bar is merged into the in-progress 5-minute
candle with OHLC merge semantics (first open kept, high/low extended,
close replaced); completion callbacks fire only when `trigger_callbacks`
is set. -/
def updCandleWithOHLC (interval token : Nat) (ist : IntervalState) (bar : Bar)
    (ts : DTime) (trigger_callbacks : Bool) : IntervalState × List Candle :=
  if interval ≠ 5 then (ist, [])
  else
    let candleTime := bucketTime 5 ts
    let fresh : Candle := ⟨bar.open_, bar.high, bar.low, bar.close, candleTime, token⟩
    match ist.current token with
    | none =>
        let cur' := fun t => if t = token then some fresh else ist.current t
        ({ ist with current := cur' }, [])
    | some cur =>
        if cur.timestamp < candleTime then
          let cur' := fun t => if t = token then some fresh else ist.current t
          let comp' := fun t => if t = token then ist.completed t ++ [cur] else ist.completed t
          ({ current := cur', completed := comp' },
           if trigger_callbacks then [cur] else [])
        else
          -- aggregate OHLC: keep the first open, extend high/low, take latest close
          let merged : Candle :=
            { cur with high := max cur.high bar.high, low := min cur.low bar.low,
                       close := bar.close }
          let cur' := fun t => if t = token then some merged else ist.current t
          ({ ist with current := cur' }, [])

/-- Embeds `CandleAggregator.add_historical_candle`: append the bar directly as a
completed 1-minute candle (no 1-minute callbacks fire), then fold its
OHLC into the 5-minute aggregation.  Returns the 5-minute completion
callback payloads. -/
def addHistoricalCandle (a : AggState) (token : Nat) (bar : Bar) (ts : DTime)
    (trigger_callbacks : Bool) : AggState × List Candle :=
  let candleTime1 : DTime := ⟨ts.minute, 0⟩  -- timestamp.replace(second=0, microsecond=0)
  let c1 : Candle := ⟨bar.open_, bar.high, bar.low, bar.close, candleTime1, token⟩
  let comp1 := fun t => if t = token then a.oneMin.completed t ++ [c1] else a.oneMin.completed t
  let one : IntervalState := { a.oneMin with completed := comp1 }
  let r5 := updCandleWithOHLC 5 token a.fiveMin bar ts trigger_callbacks
  (⟨one, r5.1⟩, r5.2)

/-- Backfill a list of historical 1-minute bars in order
(`add_historical_candle` in a loop), accumulating the 5-minute completion
callback payloads. -/
def backfill (a : AggState) (token : Nat) (bars : List (Bar × DTime))
    (trigger_callbacks : Bool) : AggState × List Candle :=
  bars.foldl
    (fun acc bt =>
      let r := addHistoricalCandle acc.1 token bt.1 bt.2 trigger_callbacks
      (r.1, acc.2 ++ r.2))
    (a, [])

/-- Embeds `CandleAggregator.get_candles`: select the completed candles of the
requested interval, filter by the optional inclusive start / exclusive end
bounds, and keep the last `count` rows when a nonzero count is given
(`if count: df.tail(count)`; Python treats `count=0` as falsy). -/
def getCandles (a : AggState) (token : Nat) (interval : String)
    (count : Option Nat) (start_time end_time : Option DTime) : List Candle :=
  let candles :=
    if interval = "1min" then a.oneMin.completed token
    else if interval = "5min" then a.fiveMin.completed token
    else []
  let candles :=
    if start_time.isSome || end_time.isSome then
      candles.filter fun c =>
        (match start_time with
         | some s => decide (s ≤ c.timestamp)
         | none => true) &&
        (match end_time with
         | some e => decide (c.timestamp < e)
         | none => true)
    else candles
  match count with
  | none => candles
  | some 0 => candles
  | some n => candles.drop (candles.length - n)

/-! ### Stop-loss state machine (`src/strategy/stop_loss.py`) -/

/-- Embeds `StopLossState` dataclass. -/
structure StopLossState where
  current_sl : ℚ
  entry_price : ℚ
  is_at_breakeven : Bool
  reference_low : ℚ
  reference_mid : ℚ
  reference_high : ℚ
  last_trailing_level : ℚ
deriving DecidableEq, Repr

/-- Embeds `StopLossManager.initialize(entry_price, reference_low, reference_mid,
reference_high)`: stop starts at `reference_low`, breakeven false,
`last_trailing_level = entry_price`. -/
def slInit (entry_price reference_low reference_mid reference_high : ℚ) :
    StopLossState :=
  { current_sl := reference_low
    entry_price := entry_price
    is_at_breakeven := false
    reference_low := reference_low
    reference_mid := reference_mid
    reference_high := reference_high
    last_trailing_level := entry_price }

/-- Embeds `StopLossManager.update_progressive_sl(current_price)`.  The manager's
`self.state` is `Option StopLossState` (None before `initialize` / after
`reset`); the function returns the new state and the returned stop-loss
value.  The three rules form an `if/elif/elif` chain: first match wins. -/
def update_progressive_sl (state : Option StopLossState) (current_price : ℚ) :
    Option StopLossState × ℚ :=
  match state with
  | none => (none, 0)
  | some st =>
      if st.is_at_breakeven then (some st, st.current_sl)
      else
        let EC := st.entry_price
        let GC := st.reference_low
        let BC := st.reference_mid
        let RC := st.reference_high
        let st' :=
          -- Rule 1: If price >= EC + (BC - GC), move SL to BC
          if current_price ≥ EC + (BC - GC) ∧ st.current_sl < BC then
            { st with current_sl := BC }
          -- Rule 2: If price >= EC + (RC - GC), move SL to RC
          else if current_price ≥ EC + (RC - GC) ∧ st.current_sl < RC then
            { st with current_sl := RC }
          -- Rule 3: If price >= EC + (EC - GC), move SL to EC (breakeven)
          else if current_price ≥ EC + (EC - GC) ∧ st.current_sl < EC then
            { st with current_sl := EC, is_at_breakeven := true }
          else st
        (some st', st'.current_sl)

/-- Python `int()` applied to a rational: truncation toward zero. -/
def pyInt (q : ℚ) : ℤ := if 0 ≤ q then ⌊q⌋ else ⌈q⌉

/-- Embeds `StopLossManager.update_trailing_sl(current_price)`.  `increment` is
`settings.TRAILING_INCREMENT` (a positive configuration constant, default
20.0).  Runs only after breakeven; advances the stop to
`entry + n·increment` when a new increment level is crossed. -/
def update_trailing_sl (increment : ℚ) (state : Option StopLossState)
    (current_price : ℚ) : Option StopLossState × ℚ :=
  match state with
  | none => (none, 0)
  | some st =>
      if st.is_at_breakeven = false then (some st, st.current_sl)
      else
        let EC := st.entry_price
        let price_above_entry := current_price - EC
        let num_increments : ℤ := pyInt (price_above_entry / increment)
        if 0 < num_increments then
          let new_trailing_level := EC + (num_increments : ℚ) * increment
          if st.last_trailing_level < new_trailing_level then
            let st' := { st with current_sl := new_trailing_level,
                                 last_trailing_level := new_trailing_level }
            (some st', st'.current_sl)
          else (some st, st.current_sl)
        else (some st, st.current_sl)

/-- Embeds `StopLossManager.is_breakeven_reached()`. -/
def is_breakeven_reached (state : Option StopLossState) : Bool :=
  match state with
  | none => false
  | some st => st.is_at_breakeven

/-- Embeds `StopLossManager.get_current_sl()`. -/
def get_current_sl (state : Option StopLossState) : Option ℚ :=
  match state with
  | none => none
  | some st => some st.current_sl

/-- A call to one of the two stop-advancing methods of
`StopLossManager`. -/
inductive SLCall where
  | progressive (price : ℚ)
  | trailing (price : ℚ)

/-- Apply one stop-advancing call. -/
def slStep (increment : ℚ) (state : Option StopLossState) :
    SLCall → Option StopLossState × ℚ
  | .progressive p => update_progressive_sl state p
  | .trailing p => update_trailing_sl increment state p

/-- Run a sequence of stop-advancing calls. -/
def slRun (increment : ℚ) (state : Option StopLossState) (calls : List SLCall) :
    Option StopLossState :=
  calls.foldl (fun s c => (slStep increment s c).1) state

/-- The stop-loss value `update_*_sl` would report for a state (`0` when
uninitialized, as in the code's early-return). -/
def slValue (state : Option StopLossState) : ℚ :=
  match state with
  | none => 0
  | some st => st.current_sl

/-! ### Entry detector (`src/strategy/breakout_logic.py`) -/

/-- The `TradeSide` literal ``CALL` | `PUT` | `NONE``. -/
inductive Side where
  | CALL
  | PUT
  | NONE
deriving DecidableEq, Repr

/-- The raw `pd.Series` handed to `decide_side`: the `timestamp` and
`close` keys may each be missing (`none`); a wholly missing candle is
`Option NInput = none` at the call site. -/
structure NInput where
  timestamp : Option DTime
  close : Option ℚ
deriving DecidableEq, Repr

/-- A well-formed Nifty 5-minute candle as buffered in `_prev_nifty5`
(every buffered candle passed the key guard, so both fields exist; only
`timestamp` and `close` are ever read). -/
structure NCandle where
  timestamp : DTime
  close : ℚ
deriving DecidableEq, Repr

/-- The mutable state of `BreakoutDetector` (the legacy `BreakoutState`
pair is retained by the code but never influences `decide_side`, so it is
not part of the model). -/
structure DetectorState where
  current_side : Side
  prev_nifty5 : Option NCandle
  armed : Bool
  trading_window_open : Bool
  call_rearm_pending : Bool
  put_rearm_pending : Bool
deriving DecidableEq, Repr

/-- Embeds `BreakoutDetector.__init__`. -/
def detectorInit : DetectorState :=
  { current_side := .NONE
    prev_nifty5 := none
    armed := false
    trading_window_open := false
    call_rearm_pending := false
    put_rearm_pending := false }

/-- Embeds `_past_start_time(dt)`: true once the candle's local time of day is
`≥ 10:00` (`_trade_start_time = time(10, 0)`, i.e. minute 600 of the
day). -/
def pastStartTime (dt : DTime) : Bool := decide (600 ≤ dt.minute % 1440)

/-- Embeds `BreakoutDetector.notify_position_closed()`: when the trading window
is open, set the re-arm-pending flag of the side just closed, re-arm,
drop the buffered candle and clear `current_side`. -/
def notify_position_closed (s : DetectorState) : DetectorState :=
  if s.trading_window_open then
    let s1 :=
      match s.current_side with
      | .CALL => { s with call_rearm_pending := true }
      | .PUT => { s with put_rearm_pending := true }
      | .NONE => s
    { s1 with armed := true, prev_nifty5 := none, current_side := .NONE }
  else s

/-- Embeds `BreakoutDetector.decide_side(nifty_candle, RN, GN)`.  Returns the new
detector state together with the returned `TradeSide`.  The branch
structure mirrors the source: key guard; 10:00 gate; armed gate; buffer
of the first candle; CALL/PUT re-arm gates (a gate that is pending and
not satisfied buffers and returns `NONE`; a satisfied gate clears the
flag and falls through); then the two-candle confirmation checks. -/
def decide_side (s : DetectorState) (nifty_candle : Option NInput) (RN GN : ℚ) :
    DetectorState × Side :=
  match nifty_candle with
  | none => (s, .NONE)
  | some inp =>
      match inp.timestamp, inp.close with
      | some ts, some close =>
          let c : NCandle := ⟨ts, close⟩
          if s.trading_window_open = false ∧ pastStartTime ts = false then
            -- before 10:00, just buffer last candle
            ({ s with prev_nifty5 := some c }, .NONE)
          else
            let s :=
              if s.trading_window_open = false then
                { s with trading_window_open := true, armed := true }
              else s
            if s.armed = false then ({ s with prev_nifty5 := some c }, .NONE)
            else
              match s.prev_nifty5 with
              | none => ({ s with prev_nifty5 := some c }, .NONE)
              | some prev =>
                  let prev_close := prev.close
                  if s.call_rearm_pending = true ∧
                      ¬(prev_close ≤ RN ∧ close ≤ RN) then
                    ({ s with prev_nifty5 := some c }, .NONE)
                  else
                    let s :=
                      if s.call_rearm_pending = true then
                        { s with call_rearm_pending := false }
                      else s
                    if s.put_rearm_pending = true ∧
                        ¬(prev_close ≥ GN ∧ close ≥ GN) then
                      ({ s with prev_nifty5 := some c }, .NONE)
                    else
                      let s :=
                        if s.put_rearm_pending = true then
                          { s with put_rearm_pending := false }
                        else s
                      if prev_close > RN ∧ close > RN ∧ close > prev_close then
                        ({ s with current_side := .CALL, armed := false,
                                  prev_nifty5 := some c }, .CALL)
                      else if prev_close < GN ∧ close < GN ∧ close < prev_close then
                        ({ s with current_side := .PUT, armed := false,
                                  prev_nifty5 := some c }, .PUT)
                      else
                        ({ s with current_side := .NONE, prev_nifty5 := some c },
                         .NONE)
      | _, _ => (s, .NONE)

/-- Runs `decide_side` on a well-formed completed candle (both keys present),
as delivered by the 5-minute aggregation stream. -/
def decideSideCandle (s : DetectorState) (c : NCandle) (RN GN : ℚ) :
    DetectorState × Side :=
  decide_side s (some ⟨some c.timestamp, some c.close⟩) RN GN

/-- Feed a sequence of completed Nifty 5-minute candles through
`decide_side`, collecting the returned sides. -/
def runDetector (s : DetectorState) (cs : List NCandle) (RN GN : ℚ) :
    DetectorState × List Side :=
  match cs with
  | [] => (s, [])
  | c :: rest =>
      let r := decideSideCandle s c RN GN
      let r' := runDetector r.1 rest RN GN
      (r'.1, r.2 :: r'.2)

/-! ### Backtest replay driver's entry decision (`src/backtest/backtester.py`) -/

/-- Embeds `ReferenceLevels` dataclass (`src/strategy/reference_levels.py`). -/
structure ReferenceLevels where
  RN : ℚ
  GN : ℚ
  BN : ℚ
  RC : ℚ
  GC : ℚ
  BC : ℚ
  RP : ℚ
  GP : ℚ
  BP : ℚ
deriving DecidableEq, Repr

/-- One row of the backtest's resampled 5-minute DataFrame. -/
structure Row where
  timestamp : DTime
  nifty_open : ℚ
  nifty_high : ℚ
  nifty_low : ℚ
  nifty_close : ℚ
  call_open : ℚ
  call_high : ℚ
  call_low : ℚ
  call_close : ℚ
  put_open : ℚ
  put_high : ℚ
  put_low : ℚ
  put_close : ℚ
deriving DecidableEq, Repr

/-- Embeds the per-side column selection (the call or put close/open/high
columns of a row). -/
def optClose (side : Side) (r : Row) : ℚ :=
  match side with
  | .CALL => r.call_close
  | _ => r.put_close

def optOpen (side : Side) (r : Row) : ℚ :=
  match side with
  | .CALL => r.call_open
  | _ => r.put_open

def optHigh (side : Side) (r : Row) : ℚ :=
  match side with
  | .CALL => r.call_high
  | _ => r.put_high

/-- The entry-search state of `Backtester._backtest_single_day`: the
loop-local variables that persist across candles while no trade is open
(`breakout_detected`, `confirmation_pending`, `breakout_high`). -/
structure BTEntryState where
  breakout_detected : Bool
  confirmation_pending : Bool
  breakout_high : Option ℚ
deriving DecidableEq, Repr

/-- The per-candle entry decision of `_backtest_single_day` while not in
a trade (lines 209-261): decide a side from the Nifty candle's
close-vs-open direction and the reference band; then option-premium
breakout detection followed by confirmation; an entry returns the side
and entry price (the option close).  `breakout_high` is compared only
when `confirmation_pending` is set, in which case it was stored by the
breakout candle. -/
def btEntryStep (levels : ReferenceLevels) (st : BTEntryState) (row : Row) :
    BTEntryState × Option (Side × ℚ) :=
  let sideSel : Option (Side × ℚ) :=
    if row.nifty_close > row.nifty_open ∧ row.nifty_close > levels.RN then
      some (.CALL, levels.RC)
    else if row.nifty_close < row.nifty_open ∧ row.nifty_close < levels.GN then
      some (.PUT, levels.RP)
    else none
  match sideSel with
  | none => (st, none)  -- `continue`
  | some (side, ref_high) =>
      let option_close := optClose side row
      let option_open := optOpen side row
      let option_high := optHigh side row
      if st.breakout_detected = false ∧
          (option_close > option_open ∧ option_close > ref_high) then
        ({ breakout_detected := true, confirmation_pending := true,
           breakout_high := some option_high }, none)  -- `continue`
      else if st.confirmation_pending = true then
        match st.breakout_high with
        | some bh =>
            if option_close > option_open ∧ option_close > bh ∧
                option_close > ref_high then
              (st, some (side, option_close))  -- ENTRY
            else
              -- reset if confirmation failed
              ({ breakout_detected := false, confirmation_pending := false,
                 breakout_high := none }, none)
        | none =>
            -- unreachable in the code: the flag is only set together with
            -- a stored breakout high
            (st, none)
      else (st, none)

/-- Iterate `btEntryStep` until the first entry. -/
def btFirstEntryAux (levels : ReferenceLevels) (st : BTEntryState) :
    List Row → Option (Side × ℚ)
  | [] => none
  | row :: rest =>
      match btEntryStep levels st row with
      | (st', none) => btFirstEntryAux levels st' rest
      | (_, some e) => some e

/-- The first entry `_backtest_single_day` takes on a day's rows: rows
are restricted to trading hours (`df.index.time >= time(10, 0)`), then
scanned with the entry state machine.  The 15:15 hard-exit check only
applies while in a trade, so it cannot affect the first entry. -/
def btFirstEntry (levels : ReferenceLevels) (rows : List Row) :
    Option (Side × ℚ) :=
  btFirstEntryAux levels
    { breakout_detected := false, confirmation_pending := false,
      breakout_high := none }
    (rows.filter fun r => pastStartTime r.timestamp)

/-! ## Theorems -/

/-- C10: calling `decide_side` with a missing candle (`None`) or a candle
lacking a `timestamp` or `close` key returns `NONE` and leaves the
whole detector state (hence every field: buffered previous candle, armed
flag, trading-window flag, both re-arm pending flags) unchanged. -/
theorem decide_side_missing_data_noop (s : DetectorState) (RN GN : ℚ)
    (inp : Option NInput)
    (h : inp = none ∨ ∃ r, inp = some r ∧ (r.timestamp = none ∨ r.close = none)) :
    decide_side s inp RN GN = (s, .NONE) := by
  rcases h with rfl | ⟨r, rfl, hr⟩
  · rfl
  · obtain ⟨ts, cl⟩ := r
    cases ts <;> cases cl <;> simp_all [decide_side]

/-- Witness for C10 at a concrete input: a series with a timestamp but no
`close` key. -/
theorem decide_side_missing_data_noop_witness :
    ((some ⟨some ⟨600, 0⟩, none⟩ : Option NInput) = none ∨
      ∃ r, (some ⟨some ⟨600, 0⟩, none⟩ : Option NInput) = some r ∧
        (r.timestamp = none ∨ r.close = none)) ∧
    decide_side detectorInit (some ⟨some ⟨600, 0⟩, none⟩) 100 90 =
      (detectorInit, .NONE) :=
  ⟨Or.inr ⟨⟨some ⟨600, 0⟩, none⟩, rfl, Or.inr rfl⟩,
   decide_side_missing_data_noop detectorInit 100 90 _
     (Or.inr ⟨⟨some ⟨600, 0⟩, none⟩, rfl, Or.inr rfl⟩)⟩

/-- C5: while the trading window is open, the detector is armed, no
re-arm is pending and a previous candle `P` is buffered, processing a
completed candle `C` signals CALL iff `P.close > RN ∧ C.close > RN ∧
C.close > P.close`, and PUT iff `P.close < GN ∧ C.close < GN ∧
C.close < P.close`. -/
theorem decide_side_two_candle_confirmation (s : DetectorState) (P C : NCandle)
    (RN GN : ℚ) (hw : s.trading_window_open = true) (ha : s.armed = true)
    (hcp : s.call_rearm_pending = false) (hpp : s.put_rearm_pending = false)
    (hprev : s.prev_nifty5 = some P) :
    ((decideSideCandle s C RN GN).2 = .CALL ↔
       P.close > RN ∧ C.close > RN ∧ C.close > P.close) ∧
    ((decideSideCandle s C RN GN).2 = .PUT ↔
       P.close < GN ∧ C.close < GN ∧ C.close < P.close) := by
  by_cases hA : P.close > RN ∧ C.close > RN ∧ C.close > P.close
  · have hB : ¬(P.close < GN ∧ C.close < GN ∧ C.close < P.close) :=
      fun hb => absurd hb.2.2 (lt_asymm hA.2.2)
    simp [decideSideCandle, decide_side, hw, ha, hcp, hpp, hprev, hA, hB]
  · by_cases hB : P.close < GN ∧ C.close < GN ∧ C.close < P.close
    · simp [decideSideCandle, decide_side, hw, ha, hcp, hpp, hprev, hA, hB]
    · simp [decideSideCandle, decide_side, hw, ha, hcp, hpp, hprev, hA, hB]

/-- Detector state just before the second candle of the spec's worked
example (`R=100`, `G=90`, previous close 101): window open, armed, no
re-arm pending. -/
def exampleArmedState : DetectorState :=
  { current_side := .NONE
    prev_nifty5 := some ⟨⟨600, 0⟩, 101⟩
    armed := true
    trading_window_open := true
    call_rearm_pending := false
    put_rearm_pending := false }

/-- Witness for C5 at the spec's example pair (101, 105) with `R=100`,
`G=90`. -/
theorem decide_side_two_candle_confirmation_witness :
    exampleArmedState.trading_window_open = true ∧
    (((decideSideCandle exampleArmedState ⟨⟨605, 0⟩, 105⟩ 100 90).2 = .CALL ↔
        (101 : ℚ) > 100 ∧ (105 : ℚ) > 100 ∧ (105 : ℚ) > 101) ∧
     ((decideSideCandle exampleArmedState ⟨⟨605, 0⟩, 105⟩ 100 90).2 = .PUT ↔
        (101 : ℚ) < 90 ∧ (105 : ℚ) < 90 ∧ (105 : ℚ) < 101)) :=
  ⟨rfl, decide_side_two_candle_confirmation exampleArmedState ⟨⟨600, 0⟩, 101⟩
    ⟨⟨605, 0⟩, 105⟩ 100 90 rfl rfl rfl rfl rfl⟩

/-- The stop-loss state of the spec's worked example: entry=100, low=90,
mid=95, high=110 (so the initial stop is 90). -/
def exampleSLState : Option StopLossState := some (slInit 100 90 95 110)

/-- C2 counterexample: contrary to the claim, a progressive update with
price 96 does NOT set the stop to 95 — rule 1 requires
`price ≥ entry + (mid - low) = 105`, so no rule fires and the stop stays
at 90. -/
theorem progressive_sl_example_counterexample :
    ¬((update_progressive_sl exampleSLState 96).2 = 95) := by
  norm_num [exampleSLState, update_progressive_sl, slInit]

/-- C2 amended: with entry=100, low=90, mid=95, high=110, a progressive
update with price 96 leaves the stop at 90 (no rule's threshold is
reached), and a subsequent progressive update with price 111 sets the
stop to 95 — rule 1 (`111 ≥ 105`, stop 90 < mid 95) fires first-match —
while breakeven stays false, because the rules are an ordered,
mutually exclusive `if/elif` chain. -/
theorem progressive_sl_first_match_example :
    (update_progressive_sl exampleSLState 96).2 = 90 ∧
    (update_progressive_sl (update_progressive_sl exampleSLState 96).1 111).2 = 95 ∧
    is_breakeven_reached
      (update_progressive_sl (update_progressive_sl exampleSLState 96).1 111).1 =
      false := by
  norm_num [exampleSLState, update_progressive_sl, slInit, is_breakeven_reached]

/-- Reference levels for the divergence run: `RN=100`, `GN=90`; the
option-leg levels are far above the flat option prices. -/
def divLevels : ReferenceLevels := ⟨100, 90, 95, 150, 120, 135, 150, 120, 135⟩

/-- First 5-minute row (10:00): Nifty opens 106, closes 101 — a red candle
closing above `RN`.  Option legs flat at 50. -/
def divRow1 : Row := ⟨⟨600, 0⟩, 106, 106, 100, 101, 50, 50, 50, 50, 50, 50, 50, 50⟩

/-- Second 5-minute row (10:05): Nifty opens 106, closes 105 — again red,
closing above `RN` and above the previous close. -/
def divRow2 : Row := ⟨⟨605, 0⟩, 106, 106, 104, 105, 50, 50, 50, 50, 50, 50, 50, 50⟩

/-- C1: the backtest replay driver and the live detector disagree on the
same candle sequence.  With `RN=100`, `GN=90` and Nifty closes 101 then
105 (both red candles), the live path's `decide_side` confirms a CALL on
the second candle, while `_backtest_single_day` takes no entry at all:
its re-implemented rule additionally requires `nifty_close > nifty_open`
and an option-premium breakout + confirmation. -/
theorem backtest_live_divergence :
    btFirstEntry divLevels [divRow1, divRow2] = none ∧
    (runDetector detectorInit [⟨⟨600, 0⟩, 101⟩, ⟨⟨605, 0⟩, 105⟩] 100 90).2 =
      [Side.NONE, Side.CALL] := by
  exact ⟨rfl, rfl⟩

/-- C7: `get_candles` with both bounds returns exactly the completed
candles of the requested interval whose `window_start` satisfies
`start ≤ window_start < end` (end exclusive); in particular no candle
with `window_start ≥ end` is ever returned. -/
theorem get_candles_window_exact (a : AggState) (token : Nat) (s e : DTime)
    (c : Candle) :
    (c ∈ getCandles a token ("1min") none (some s) (some e) ↔
       c ∈ a.oneMin.completed token ∧ s ≤ c.timestamp ∧ c.timestamp < e) ∧
    (c ∈ getCandles a token ("5min") none (some s) (some e) ↔
       c ∈ a.fiveMin.completed token ∧ s ≤ c.timestamp ∧ c.timestamp < e) := by
  constructor <;>
    simp [getCandles, List.mem_filter, and_assoc]

/-- Aggregator after one tick at 10:00 for token 7. -/
def lateAgg0 : AggState := (addTick emptyAggState 7 100 ⟨600, 0⟩).1

/-- Aggregator after a further tick at 10:05 for token 7: the 10:00
1-minute and 5-minute windows are now finalized. -/
def lateAgg1 : AggState := (addTick lateAgg0 7 100 ⟨605, 0⟩).1

/-- C3 counterexample: the 5-minute window starting 10:00 is already
closed (its candle sits in the completed history), yet ingesting a late
tick at 10:03 with price 999 is NOT dropped: it changes the aggregator's
state (the in-progress 10:05 candle absorbs the price into its
high/low/close). -/
theorem late_tick_not_dropped_counterexample :
    lateAgg1.fiveMin.completed 7 = [⟨100, 100, 100, 100, ⟨600, 0⟩, 7⟩] ∧
    bucketTime 5 ⟨603, 0⟩ = ⟨600, 0⟩ ∧
    (addTick lateAgg1 7 999 ⟨603, 0⟩).1.fiveMin.current 7 ≠
      lateAgg1.fiveMin.current 7 := by
  refine ⟨rfl, rfl, ?_⟩
  decide

/-- The embedded `_update_candle` only ever appends to a token's completed history. -/
theorem updCandleInterval_completed_extend (interval token : Nat)
    (ist : IntervalState) (ltp : ℚ) (ts : DTime) (t : Nat) :
    ∃ tail, (updCandleInterval interval token ist ltp ts).1.completed t =
      ist.completed t ++ tail := by
  unfold updCandleInterval
  cases h : ist.current token with
  | none => exact ⟨[], by simp⟩
  | some cur =>
      dsimp only
      split_ifs with hlt
      · by_cases ht : t = token
        · exact ⟨[cur], by simp [ht]⟩
        · exact ⟨[], by simp [ht]⟩
      · exact ⟨[], by simp⟩

/-- The embedded `_update_candle_with_ohlc` only ever appends to a token's completed
history. -/
theorem updCandleWithOHLC_completed_extend (interval token : Nat)
    (ist : IntervalState) (bar : Bar) (ts : DTime) (trig : Bool) (t : Nat) :
    ∃ tail, (updCandleWithOHLC interval token ist bar ts trig).1.completed t =
      ist.completed t ++ tail := by
  unfold updCandleWithOHLC
  by_cases hint : interval ≠ 5
  · rw [if_pos hint]
    exact ⟨[], by simp⟩
  · rw [if_neg hint]
    cases h : ist.current token with
    | none => exact ⟨[], by simp [h]⟩
    | some cur =>
        by_cases hlt : cur.timestamp < bucketTime 5 ts
        · by_cases ht : t = token
          · exact ⟨[cur], by simp [h, hlt, ht]⟩
          · exact ⟨[], by simp [h, hlt, ht]⟩
        · exact ⟨[], by simp [h, hlt]⟩

/-- C3 amended: a tick or bar for an already-closed window is not
dropped (it is folded into the current in-progress candle, see the
counterexample), but no finalized candle in the completed-candle history
is ever mutated: every ingestion — tick or historical bar — only appends
to each token's completed history, for every interval. -/
theorem completed_history_append_only (a : AggState) (token t : Nat) (ltp : ℚ)
    (bar : Bar) (ts : DTime) (trig : Bool) :
    (∃ tail, (addTick a token ltp ts).1.oneMin.completed t =
       a.oneMin.completed t ++ tail) ∧
    (∃ tail, (addTick a token ltp ts).1.fiveMin.completed t =
       a.fiveMin.completed t ++ tail) ∧
    (∃ tail, (addHistoricalCandle a token bar ts trig).1.oneMin.completed t =
       a.oneMin.completed t ++ tail) ∧
    (∃ tail, (addHistoricalCandle a token bar ts trig).1.fiveMin.completed t =
       a.fiveMin.completed t ++ tail) := by
  refine ⟨?_, ?_, ?_, ?_⟩
  · exact updCandleInterval_completed_extend 1 token a.oneMin ltp ts t
  · exact updCandleInterval_completed_extend 5 token a.fiveMin ltp ts t
  · unfold addHistoricalCandle
    by_cases ht : t = token
    · exact ⟨[⟨bar.open_, bar.high, bar.low, bar.close, ⟨ts.minute, 0⟩, token⟩],
        by simp [ht]⟩
    · exact ⟨[], by simp [ht]⟩
  · exact updCandleWithOHLC_completed_extend 5 token a.fiveMin bar ts trig t

/-- One `decide_side` call while the CALL re-arm gate is pending and the
gate's clearing pair is not met: the candle is buffered and `NONE` is
returned, with no other state change. -/
theorem decide_side_call_pending_step (s : DetectorState) (c : NCandle)
    (RN GN : ℚ) (hw : s.trading_window_open = true)
    (hc : s.call_rearm_pending = true)
    (hgate : ∀ p, s.prev_nifty5 = some p → ¬(p.close ≤ RN ∧ c.close ≤ RN)) :
    decideSideCandle s c RN GN = ({ s with prev_nifty5 := some c }, .NONE) := by
  unfold decideSideCandle decide_side
  cases ha : s.armed with
  | false => simp [hw, ha]
  | true =>
      cases hp : s.prev_nifty5 with
      | none => simp [hw, ha, hp]
      | some p => simp [hw, hc, ha, hp, hgate _ hp]

/-- While the CALL re-arm gate stays pending (no candle pair closes at or
below `RN`), every `decide_side` call returns `NONE`. -/
theorem runDetector_call_pending_none (cs : List NCandle) :
    ∀ (s : DetectorState) (RN GN : ℚ), s.trading_window_open = true →
      s.call_rearm_pending = true →
      List.Chain' (fun a b : NCandle => ¬(a.close ≤ RN ∧ b.close ≤ RN))
        (s.prev_nifty5.toList ++ cs) →
      ∀ o ∈ (runDetector s cs RN GN).2, o = Side.NONE := by
  induction cs with
  | nil =>
      intro s RN GN _ _ _ o ho
      simp [runDetector] at ho
  | cons c rest ih =>
      intro s RN GN hw hc hch o ho
      have hgate : ∀ p, s.prev_nifty5 = some p → ¬(p.close ≤ RN ∧ c.close ≤ RN) := by
        intro p hp
        rw [hp] at hch
        have hch2 : List.Chain' (fun a b : NCandle => ¬(a.close ≤ RN ∧ b.close ≤ RN))
            (p :: c :: rest) := hch
        exact (List.chain'_cons.mp hch2).1
      have hstep := decide_side_call_pending_step s c RN GN hw hc hgate
      rw [runDetector, hstep] at ho
      rcases List.mem_cons.mp ho with h | h
      · exact h
      · refine ih _ RN GN (by simpa using hw) (by simpa using hc) ?_ o h
        cases hp : s.prev_nifty5 with
        | none =>
            rw [hp] at hch
            exact hch
        | some p =>
            rw [hp] at hch
            have hch2 : List.Chain' (fun a b : NCandle => ¬(a.close ≤ RN ∧ b.close ≤ RN))
                (p :: c :: rest) := hch
            exact (List.chain'_cons.mp hch2).2

/-- One `decide_side` call while the PUT re-arm gate is pending and its
clearing pair is not met: `NONE` is returned, the candle is buffered,
and the PUT gate (and trading window) stay as they were. -/
theorem decide_side_put_pending_step (s : DetectorState) (c : NCandle)
    (RN GN : ℚ) (hw : s.trading_window_open = true)
    (hp : s.put_rearm_pending = true)
    (hgate : ∀ p, s.prev_nifty5 = some p → ¬(p.close ≥ GN ∧ c.close ≥ GN)) :
    (decideSideCandle s c RN GN).2 = Side.NONE ∧
    (decideSideCandle s c RN GN).1.put_rearm_pending = true ∧
    (decideSideCandle s c RN GN).1.trading_window_open = true ∧
    (decideSideCandle s c RN GN).1.prev_nifty5 = some c := by
  unfold decideSideCandle decide_side
  cases ha : s.armed with
  | false => simp [hw, ha, hp]
  | true =>
      cases hpn : s.prev_nifty5 with
      | none => simp [hw, ha, hp, hpn]
      | some p =>
          by_cases hcall : s.call_rearm_pending = true ∧ ¬(p.close ≤ RN ∧ c.close ≤ RN)
          · simp [hw, ha, hp, hpn, hcall]
          · by_cases hcp : s.call_rearm_pending = true
            · have hboth : p.close ≤ RN ∧ c.close ≤ RN := by
                by_contra hnb
                exact hcall ⟨hcp, hnb⟩
              simp [hw, ha, hp, hpn, hcp, hboth.1, hboth.2, hgate _ hpn]
            · simp [hw, ha, hp, hpn, hcp, hgate _ hpn]

/-- While the PUT re-arm gate stays pending (no candle pair closes at or
above `GN`), every `decide_side` call returns `NONE`. -/
theorem runDetector_put_pending_none (cs : List NCandle) :
    ∀ (s : DetectorState) (RN GN : ℚ), s.trading_window_open = true →
      s.put_rearm_pending = true →
      List.Chain' (fun a b : NCandle => ¬(a.close ≥ GN ∧ b.close ≥ GN))
        (s.prev_nifty5.toList ++ cs) →
      ∀ o ∈ (runDetector s cs RN GN).2, o = Side.NONE := by
  induction cs with
  | nil =>
      intro s RN GN _ _ _ o ho
      simp [runDetector] at ho
  | cons c rest ih =>
      intro s RN GN hw hp hch o ho
      have hgate : ∀ q, s.prev_nifty5 = some q → ¬(q.close ≥ GN ∧ c.close ≥ GN) := by
        intro q hq
        rw [hq] at hch
        have hch2 : List.Chain' (fun a b : NCandle => ¬(a.close ≥ GN ∧ b.close ≥ GN))
            (q :: c :: rest) := hch
        exact (List.chain'_cons.mp hch2).1
      obtain ⟨h2, hpp, hww, hprev⟩ := decide_side_put_pending_step s c RN GN hw hp hgate
      have ho' : o = (decideSideCandle s c RN GN).2 ∨
          o ∈ (runDetector (decideSideCandle s c RN GN).1 rest RN GN).2 :=
        List.mem_cons.mp ho
      rcases ho' with h | h
      · rw [h]; exact h2
      · refine ih _ RN GN hww hpp ?_ o h
        rw [hprev]
        cases hq : s.prev_nifty5 with
        | none =>
            rw [hq] at hch
            exact hch
        | some q =>
            rw [hq] at hch
            have hch2 : List.Chain' (fun a b : NCandle => ¬(a.close ≥ GN ∧ b.close ≥ GN))
                (q :: c :: rest) := hch
            exact (List.chain'_cons.mp hch2).2

/-- C6: after a position is closed via `notify_position_closed`, a
same-direction signal is suppressed until some processed candle pair
clears the re-arm gate.  Concretely: after a CALL close, if no adjacent
pair of the subsequent candle stream has both closes `≤ RN`, no CALL is
ever signalled on that stream; symmetrically, after a PUT close, if no
adjacent pair has both closes `≥ GN`, no PUT is ever signalled. -/
theorem rearm_gating_suppresses_signals (s : DetectorState) (RN GN : ℚ)
    (cs : List NCandle) (hw : s.trading_window_open = true) :
    (s.current_side = .CALL →
       List.Chain' (fun a b : NCandle => ¬(a.close ≤ RN ∧ b.close ≤ RN)) cs →
       Side.CALL ∉ (runDetector (notify_position_closed s) cs RN GN).2) ∧
    (s.current_side = .PUT →
       List.Chain' (fun a b : NCandle => ¬(a.close ≥ GN ∧ b.close ≥ GN)) cs →
       Side.PUT ∉ (runDetector (notify_position_closed s) cs RN GN).2) := by
  constructor
  · intro hside hch hmem
    have hw' : (notify_position_closed s).trading_window_open = true := by
      simp [notify_position_closed, hw, hside]
    have hc' : (notify_position_closed s).call_rearm_pending = true := by
      simp [notify_position_closed, hw, hside]
    have hp' : (notify_position_closed s).prev_nifty5 = none := by
      simp [notify_position_closed, hw, hside]
    have hnone := runDetector_call_pending_none cs (notify_position_closed s)
      RN GN hw' hc' (by rw [hp']; simpa using hch) Side.CALL hmem
    exact Side.noConfusion hnone
  · intro hside hch hmem
    have hw' : (notify_position_closed s).trading_window_open = true := by
      simp [notify_position_closed, hw, hside]
    have hp2 : (notify_position_closed s).put_rearm_pending = true := by
      simp [notify_position_closed, hw, hside]
    have hp' : (notify_position_closed s).prev_nifty5 = none := by
      simp [notify_position_closed, hw, hside]
    have hnone := runDetector_put_pending_none cs (notify_position_closed s)
      RN GN hw' hp2 (by rw [hp']; simpa using hch) Side.PUT hmem
    exact Side.noConfusion hnone

/-- Detector state right after a CALL was signalled (window open,
disarmed, a buffered candle, no gates pending). -/
def postCallState : DetectorState :=
  { current_side := .CALL
    prev_nifty5 := some ⟨⟨605, 0⟩, 105⟩
    armed := false
    trading_window_open := true
    call_rearm_pending := false
    put_rearm_pending := false }

/-- Witness for C6: after closing the CALL position, the pair
(101, 106) — which would otherwise confirm a CALL over `RN = 100` — is
suppressed because no pair has closed back at or below `RN`. -/
theorem rearm_gating_suppresses_signals_witness :
    postCallState.trading_window_open = true ∧
    postCallState.current_side = .CALL ∧
    Side.CALL ∉
      (runDetector (notify_position_closed postCallState)
        [⟨⟨610, 0⟩, 101⟩, ⟨⟨615, 0⟩, 106⟩] 100 90).2 :=
  ⟨rfl, rfl,
    (rearm_gating_suppresses_signals postCallState 100 90
      [⟨⟨610, 0⟩, 101⟩, ⟨⟨615, 0⟩, 106⟩] rfl).1 rfl
      (List.chain'_cons.mpr ⟨by decide, List.chain'_singleton _⟩)⟩

/-- Invariant of every reachable stop-loss state: before breakeven the
trailing level still equals the entry price (only `update_trailing_sl`
moves it, and only after breakeven), and after breakeven the current stop
coincides with the trailing level. -/
def SLInv (st : StopLossState) : Prop :=
  (st.is_at_breakeven = false → st.last_trailing_level = st.entry_price) ∧
  (st.is_at_breakeven = true → st.current_sl = st.last_trailing_level)

theorem slInv_init (entry low mid high : ℚ) :
    SLInv (slInit entry low mid high) := by
  constructor <;> simp [slInit]

/-- A progressive update preserves the invariant and never lowers the
stop: each rule fires only under its `stop < target` guard. -/
theorem progressive_step (st : StopLossState) (p : ℚ) (hinv : SLInv st) :
    ∃ st', (update_progressive_sl (some st) p).1 = some st' ∧ SLInv st' ∧
      st.current_sl ≤ st'.current_sl := by
  unfold update_progressive_sl
  dsimp only
  by_cases hb : st.is_at_breakeven = true
  · rw [if_pos hb]
    exact ⟨st, rfl, hinv, le_rfl⟩
  · rw [if_neg hb]
    have hbf : st.is_at_breakeven = false := by
      cases h : st.is_at_breakeven
      · rfl
      · exact absurd h hb
    split_ifs with h1 h2 h3
    · refine ⟨_, rfl, ⟨fun _ => hinv.1 hbf, fun h => ?_⟩, le_of_lt h1.2⟩
      rw [hbf] at h
      exact Bool.noConfusion h
    · refine ⟨_, rfl, ⟨fun _ => hinv.1 hbf, fun h => ?_⟩, le_of_lt h2.2⟩
      rw [hbf] at h
      exact Bool.noConfusion h
    · refine ⟨_, rfl, ⟨fun h => Bool.noConfusion h, fun _ => (hinv.1 hbf).symm⟩,
        le_of_lt h3.2⟩
    · exact ⟨st, rfl, hinv, le_rfl⟩

/-- A trailing update preserves the invariant and never lowers the stop:
it fires only when the new level exceeds the last trailing level, which
by the invariant equals the current stop. -/
theorem trailing_step (increment : ℚ) (st : StopLossState) (p : ℚ)
    (hinv : SLInv st) :
    ∃ st', (update_trailing_sl increment (some st) p).1 = some st' ∧ SLInv st' ∧
      st.current_sl ≤ st'.current_sl := by
  unfold update_trailing_sl
  dsimp only
  by_cases hb : st.is_at_breakeven = false
  · rw [if_pos hb]
    exact ⟨st, rfl, hinv, le_rfl⟩
  · rw [if_neg hb]
    have hbt : st.is_at_breakeven = true := by
      cases h : st.is_at_breakeven
      · exact absurd h hb
      · rfl
    split_ifs with h1 h2
    · refine ⟨_, rfl, ⟨fun h => ?_, fun _ => rfl⟩, ?_⟩
      · rw [hbt] at h
        exact Bool.noConfusion h
      · rw [hinv.2 hbt]
        exact le_of_lt h2
    · exact ⟨st, rfl, hinv, le_rfl⟩
    · exact ⟨st, rfl, hinv, le_rfl⟩

/-- One stop-advancing call preserves the invariant and never lowers the
stop. -/
theorem slStep_mono (increment : ℚ) (st : StopLossState) (c : SLCall)
    (hinv : SLInv st) :
    ∃ st', (slStep increment (some st) c).1 = some st' ∧ SLInv st' ∧
      st.current_sl ≤ st'.current_sl := by
  cases c with
  | progressive p => exact progressive_step st p hinv
  | trailing p => exact trailing_step increment st p hinv

/-- Any sequence of stop-advancing calls preserves the invariant and
never lowers the stop. -/
theorem slRun_mono (increment : ℚ) (calls : List SLCall) :
    ∀ st : StopLossState, SLInv st →
      ∃ st', slRun increment (some st) calls = some st' ∧ SLInv st' ∧
        st.current_sl ≤ st'.current_sl := by
  induction calls with
  | nil => exact fun st h => ⟨st, rfl, h, le_rfl⟩
  | cons c rest ih =>
      intro st h
      obtain ⟨st1, hst1, hinv1, hle1⟩ := slStep_mono increment st c h
      obtain ⟨st2, hst2, hinv2, hle2⟩ := ih st1 hinv1
      refine ⟨st2, ?_, hinv2, le_trans hle1 hle2⟩
      simp only [slRun, List.foldl_cons] at hst2 ⊢
      rw [hst1]
      exact hst2

/-- C9: from any initialized stop-loss state, the current stop-loss value
is non-decreasing across every sequence of `update_progressive_sl` /
`update_trailing_sl` calls, for all price arguments.  (`increment` is
`settings.TRAILING_INCREMENT`; positivity keeps the model inside the
region where Lean's total division agrees with Python's — the default is
20.0 and the proof never needs the bound.) -/
theorem stop_loss_monotone (increment entry low mid high : ℚ)
    (calls more : List SLCall) (_hinc : 0 < increment) :
    slValue (slRun increment (some (slInit entry low mid high)) calls) ≤
      slValue (slRun increment (some (slInit entry low mid high))
        (calls ++ more)) := by
  obtain ⟨st1, h1, hinv1, _⟩ :=
    slRun_mono increment calls (slInit entry low mid high)
      (slInv_init entry low mid high)
  obtain ⟨st2, h2, _, hle⟩ := slRun_mono increment more st1 hinv1
  have hsplit : slRun increment (some (slInit entry low mid high))
      (calls ++ more) = slRun increment (some st1) more := by
    simp only [slRun, List.foldl_append]
    simp only [slRun] at h1
    rw [h1]
  rw [h1, hsplit, h2]
  exact hle

/-- Witness for C9: entry=100, low=90, mid=95, high=110, increment=20,
with a progressive advance to the mid level followed by a trailing
advance and a further progressive call. -/
theorem stop_loss_monotone_witness :
    0 < (20 : ℚ) ∧
    slValue (slRun 20 (some (slInit 100 90 95 110))
        [SLCall.progressive 105]) ≤
      slValue (slRun 20 (some (slInit 100 90 95 110))
        ([SLCall.progressive 105] ++ [SLCall.trailing 130, SLCall.progressive 120])) :=
  ⟨by norm_num,
   stop_loss_monotone 20 100 90 95 110 [SLCall.progressive 105]
     [SLCall.trailing 130, SLCall.progressive 120] (by norm_num)⟩

/-- Feed a list of `(price, timestamp)` ticks through `_update_candle`
for one interval and token, accumulating the completion-callback
payloads. -/
def ingestInterval (interval token : Nat) (ist : IntervalState)
    (ticks : List (ℚ × DTime)) : IntervalState × List Candle :=
  match ist, ticks with
  | ist, [] => (ist, [])
  | ist, x :: rest =>
      let r := updCandleInterval interval token ist x.1 x.2
      let r' := ingestInterval interval token r.1 rest
      (r'.1, r.2 ++ r'.2)

/-- The in-window update `_update_candle` performs on the current candle:
extend high/low, replace close (the open and window are untouched). -/
def absorbTick (c : Candle) (x : ℚ × DTime) : Candle :=
  { c with high := max c.high x.1, low := min c.low x.1, close := x.1 }

theorem foldl_absorbTick_open (ticks : List (ℚ × DTime)) (c : Candle) :
    (ticks.foldl absorbTick c).open_ = c.open_ := by
  induction ticks generalizing c with
  | nil => rfl
  | cons x rest ih => simp [List.foldl_cons, ih, absorbTick]

theorem foldl_absorbTick_timestamp (ticks : List (ℚ × DTime)) (c : Candle) :
    (ticks.foldl absorbTick c).timestamp = c.timestamp := by
  induction ticks generalizing c with
  | nil => rfl
  | cons x rest ih => simp [List.foldl_cons, ih, absorbTick]

theorem foldl_absorbTick_token (ticks : List (ℚ × DTime)) (c : Candle) :
    (ticks.foldl absorbTick c).token = c.token := by
  induction ticks generalizing c with
  | nil => rfl
  | cons x rest ih => simp [List.foldl_cons, ih, absorbTick]

theorem foldl_absorbTick_high (ticks : List (ℚ × DTime)) (c : Candle) :
    (ticks.foldl absorbTick c).high = (ticks.map Prod.fst).foldl max c.high := by
  induction ticks generalizing c with
  | nil => rfl
  | cons x rest ih => simp [List.foldl_cons, ih, absorbTick]

theorem foldl_absorbTick_low (ticks : List (ℚ × DTime)) (c : Candle) :
    (ticks.foldl absorbTick c).low = (ticks.map Prod.fst).foldl min c.low := by
  induction ticks generalizing c with
  | nil => rfl
  | cons x rest ih => simp [List.foldl_cons, ih, absorbTick]

theorem foldl_absorbTick_close (ticks : List (ℚ × DTime)) (c : Candle) :
    (ticks.foldl absorbTick c).close = (ticks.map Prod.fst).getLastD c.close := by
  induction ticks generalizing c with
  | nil => rfl
  | cons x rest ih =>
      rw [List.foldl_cons, ih, List.map_cons, List.getLastD_cons]
      rfl

/-- Overwrite one token's in-progress candle (the shape of every
`current_candles[token] = {...}` assignment in the embedding). -/
def setCurrent (ist : IntervalState) (token : Nat) (c : Candle) : IntervalState :=
  { ist with current := fun t => if t = token then some c else ist.current t }

/-- Ticks bucketed into the window of the current in-progress candle are
all absorbed into it: no candle completes, no callback fires, and the
completed history of every token is untouched. -/
theorem ingestInterval_same_window (interval token : Nat)
    (ticks : List (ℚ × DTime)) :
    ∀ (ist : IntervalState) (cur : Candle), ist.current token = some cur →
      (∀ x ∈ ticks, bucketTime interval x.2 = cur.timestamp) →
      (ingestInterval interval token ist ticks).2 = [] ∧
      (ingestInterval interval token ist ticks).1.current token =
        some (ticks.foldl absorbTick cur) ∧
      ∀ t, (ingestInterval interval token ist ticks).1.completed t =
        ist.completed t := by
  induction ticks with
  | nil =>
      intro ist cur hcur _
      exact ⟨rfl, hcur, fun _ => rfl⟩
  | cons x rest ih =>
      intro ist cur hcur hall
      have hbx : bucketTime interval x.2 = cur.timestamp :=
        hall x (List.mem_cons_self x rest)
      have hupd : updCandleInterval interval token ist x.1 x.2 =
          (setCurrent ist token (absorbTick cur x), []) := by
        unfold updCandleInterval
        rw [hcur]
        dsimp only
        rw [hbx, if_neg (show ¬(cur.timestamp < cur.timestamp) from
          fun h => Nat.lt_irrefl _ h)]
        rfl
      have hcur1 : (setCurrent ist token (absorbTick cur x)).current token =
          some (absorbTick cur x) := by simp [setCurrent]
      obtain ⟨hev, hcur2, hcomp⟩ := ih _ (absorbTick cur x) hcur1
        (fun y hy => by rw [hall y (List.mem_cons_of_mem x hy)]; rfl)
      simp only [ingestInterval]
      rw [hupd]
      dsimp only
      refine ⟨by simp [hev], ?_, fun t => hcomp t⟩
      rw [List.foldl_cons]
      exact hcur2

/-- C8: for a non-empty tick sequence all falling in one window `W` of an
instrument with no in-progress candle, no callback fires while the window
is filling, and the candle finalized for `W` by the first later-window
tick has open = first tick's price, high = max of the prices, low = min
of the prices, close = last price, window_start = `W` — and is appended
to the completed history. -/
theorem same_window_ticks_ohlc (interval token : Nat) (ist : IntervalState)
    (p0 : ℚ) (t0 : DTime) (rest : List (ℚ × DTime)) (pf : ℚ) (tf : DTime)
    (hfresh : ist.current token = none)
    (hall : ∀ x ∈ (p0, t0) :: rest,
      bucketTime interval x.2 = bucketTime interval t0)
    (hnext : bucketTime interval t0 < bucketTime interval tf) :
    (ingestInterval interval token ist ((p0, t0) :: rest)).2 = [] ∧
    (updCandleInterval interval token
        (ingestInterval interval token ist ((p0, t0) :: rest)).1 pf tf).2 =
      [⟨p0, (rest.map Prod.fst).foldl max p0, (rest.map Prod.fst).foldl min p0,
        (rest.map Prod.fst).getLastD p0, bucketTime interval t0, token⟩] ∧
    (updCandleInterval interval token
        (ingestInterval interval token ist ((p0, t0) :: rest)).1 pf tf).1.completed
        token =
      ist.completed token ++
        [⟨p0, (rest.map Prod.fst).foldl max p0, (rest.map Prod.fst).foldl min p0,
          (rest.map Prod.fst).getLastD p0, bucketTime interval t0, token⟩] := by
  have hupd0 : updCandleInterval interval token ist p0 t0 =
      (setCurrent ist token ⟨p0, p0, p0, p0, bucketTime interval t0, token⟩, []) := by
    unfold updCandleInterval
    rw [hfresh]
    rfl
  have hcur1 : (setCurrent ist token
      ⟨p0, p0, p0, p0, bucketTime interval t0, token⟩).current token =
      some ⟨p0, p0, p0, p0, bucketTime interval t0, token⟩ := by simp [setCurrent]
  obtain ⟨hev, hcur2, hcomp⟩ := ingestInterval_same_window interval token rest _
    ⟨p0, p0, p0, p0, bucketTime interval t0, token⟩ hcur1
    (fun y hy => hall y (List.mem_cons_of_mem _ hy))
  have hA : rest.foldl absorbTick ⟨p0, p0, p0, p0, bucketTime interval t0, token⟩ =
      ⟨p0, (rest.map Prod.fst).foldl max p0, (rest.map Prod.fst).foldl min p0,
        (rest.map Prod.fst).getLastD p0, bucketTime interval t0, token⟩ := by
    ext
    · exact foldl_absorbTick_open rest _
    · exact foldl_absorbTick_high rest _
    · exact foldl_absorbTick_low rest _
    · exact foldl_absorbTick_close rest _
    · rw [foldl_absorbTick_timestamp rest _]
    · exact foldl_absorbTick_token rest _
  have hstep : ingestInterval interval token ist ((p0, t0) :: rest) =
      ((ingestInterval interval token (setCurrent ist token
          ⟨p0, p0, p0, p0, bucketTime interval t0, token⟩) rest).1,
        [] ++ (ingestInterval interval token (setCurrent ist token
          ⟨p0, p0, p0, p0, bucketTime interval t0, token⟩) rest).2) := by
    simp only [ingestInterval]
    rw [hupd0]
  rw [hstep]
  dsimp only
  rw [hA] at hcur2
  refine ⟨by simp [hev], ?_⟩
  have hupdf : ∀ s2 : IntervalState, s2.current token =
      some ⟨p0, (rest.map Prod.fst).foldl max p0, (rest.map Prod.fst).foldl min p0,
        (rest.map Prod.fst).getLastD p0, bucketTime interval t0, token⟩ →
      (updCandleInterval interval token s2 pf tf).2 =
        [⟨p0, (rest.map Prod.fst).foldl max p0, (rest.map Prod.fst).foldl min p0,
          (rest.map Prod.fst).getLastD p0, bucketTime interval t0, token⟩] ∧
      (updCandleInterval interval token s2 pf tf).1.completed token =
        s2.completed token ++
          [⟨p0, (rest.map Prod.fst).foldl max p0, (rest.map Prod.fst).foldl min p0,
            (rest.map Prod.fst).getLastD p0, bucketTime interval t0, token⟩] := by
    intro s2 hs2
    unfold updCandleInterval
    rw [hs2]
    dsimp only
    rw [if_pos hnext]
    exact ⟨rfl, by simp⟩
  obtain ⟨h2, h3⟩ := hupdf _ hcur2
  refine ⟨h2, ?_⟩
  rw [h3, hcomp token]
  rfl

/-- Witness for C8: interval 5, token 7, starting fresh, ticks 100, 103,
99 inside the 10:00 window, then a tick at 10:05 finalizing the candle
(open 100, high 103, low 99, close 99). -/
theorem same_window_ticks_ohlc_witness :
    bucketTime 5 (⟨600, 0⟩ : DTime) < bucketTime 5 (⟨605, 0⟩ : DTime) ∧
    ((ingestInterval 5 7 emptyIntervalState
        [(100, ⟨600, 0⟩), (103, ⟨601, 30⟩), (99, ⟨603, 10⟩)]).2 = [] ∧
     (updCandleInterval 5 7 (ingestInterval 5 7 emptyIntervalState
        [(100, ⟨600, 0⟩), (103, ⟨601, 30⟩), (99, ⟨603, 10⟩)]).1 101 ⟨605, 0⟩).2 =
       [⟨100, 103, 99, 99, ⟨600, 0⟩, 7⟩] ∧
     (updCandleInterval 5 7 (ingestInterval 5 7 emptyIntervalState
        [(100, ⟨600, 0⟩), (103, ⟨601, 30⟩), (99, ⟨603, 10⟩)]).1 101
        ⟨605, 0⟩).1.completed 7 = [] ++ [⟨100, 103, 99, 99, ⟨600, 0⟩, 7⟩]) :=
  ⟨by decide,
   same_window_ticks_ohlc 5 7 emptyIntervalState 100 ⟨600, 0⟩
     [(103, ⟨601, 30⟩), (99, ⟨603, 10⟩)] 101 ⟨605, 0⟩ rfl (by decide) (by decide)⟩

/-- C4: backfilling the five 1-minute bars 09:15–09:19 — exactly one
complete 5-minute bucket — with callbacks enabled fires NO 5-minute
completion callback (not one, as claimed and as the repository's own
`test_historical_callbacks.py` expects): the bucket's candle stays
in-progress and is only completed — correctly OHLC-merged — once a bar of
a later bucket (09:20) arrives. -/
theorem backfill_single_bucket_no_callback :
    (backfill emptyAggState 7
      [(⟨10, 12, 9, 11⟩, ⟨555, 0⟩), (⟨11, 13, 10, 12⟩, ⟨556, 0⟩),
       (⟨12, 14, 11, 13⟩, ⟨557, 0⟩), (⟨13, 15, 12, 14⟩, ⟨558, 0⟩),
       (⟨14, 16, 13, 15⟩, ⟨559, 0⟩)] true).2 = [] ∧
    ¬((backfill emptyAggState 7
      [(⟨10, 12, 9, 11⟩, ⟨555, 0⟩), (⟨11, 13, 10, 12⟩, ⟨556, 0⟩),
       (⟨12, 14, 11, 13⟩, ⟨557, 0⟩), (⟨13, 15, 12, 14⟩, ⟨558, 0⟩),
       (⟨14, 16, 13, 15⟩, ⟨559, 0⟩)] true).2.length = 1) ∧
    (addHistoricalCandle (backfill emptyAggState 7
      [(⟨10, 12, 9, 11⟩, ⟨555, 0⟩), (⟨11, 13, 10, 12⟩, ⟨556, 0⟩),
       (⟨12, 14, 11, 13⟩, ⟨557, 0⟩), (⟨13, 15, 12, 14⟩, ⟨558, 0⟩),
       (⟨14, 16, 13, 15⟩, ⟨559, 0⟩)] true).1 7 ⟨15, 17, 14, 16⟩ ⟨560, 0⟩
      true).2 = [⟨10, 16, 9, 15, ⟨555, 0⟩, 7⟩] := by
  refine ⟨rfl, ?_, ?_⟩
  · decide
  · decide

end NiftyBot
